import Mathlib

/-!
# Verification of the image-partition action (`image_partition_action.go`)

A shallow embedding of the partition/format/mount lifecycle of the debos
`ImagePartitionAction`.  Pure data and string manipulation are translated
directly; every interaction with the outside world (external commands,
the mount/unmount syscalls, file operations) is parameterised by an
`Exec` record of oracles giving each call's outcome, and the observable
side effects are collected in a trace of `Op` values.  A Go runtime
panic (out-of-range string index, nil-pointer dereference) is modelled
by `Option.none` wrapped around the result type, distinct from an
ordinary returned `error`, which is modelled by `Except.error`.
-/

namespace DebosImagePartition

/-- Structure `Partition` from `image_partition_action.go`: `number` is the 1-based
ordinal assigned by `Verify`; `FSUUID` is resolved by `formatPartition`.
Defaults are the Go zero values given by the YAML unmarshaller. -/
structure Partition where
  number : Nat := 0
  Name : String := ""
  Start : String := ""
  End : String := ""
  FS : String := ""
  Flags : List String := []
  FSUUID : String := ""
deriving Repr, DecidableEq

/-- Structure `Mountpoint` from `image_partition_action.go`.  The unexported Go
field `part *Partition` (a pointer into the action's partition slice)
is modelled as an `Option Nat` index into that list; the Go zero value
(`nil`) is `none`. -/
structure Mountpoint where
  Mountpoint : String := ""
  Partition : String := ""
  Options : List String := []
  part : Option Nat := none
deriving Repr, DecidableEq

/-- Structure `ImagePartitionAction` from `image_partition_action.go` (the
`BaseAction` header only carries logging metadata and is omitted). -/
structure ImagePartitionAction where
  ImageName : String := ""
  ImageSize : String := ""
  PartitionType : String := ""
  Partitions : List Partition := []
  Mountpoints : List Mountpoint := []
  size : Int := 0
  usingLoop : Bool := false
deriving Repr, DecidableEq

/-- The fields of the shared `DebosContext` record read or written by
this action.  The Go `bytes.Buffer` `imageFSTab` is modelled as the
string it holds. -/
structure DebosContext where
  image : String := ""
  imageMntDir : String := ""
  imageFSTab : String := ""
  imageKernelRoot : String := ""
  scratchdir : String := ""
deriving Repr, DecidableEq

/-- Outcomes of the external operations the action performs, one oracle
per primitive: `runCmd` is the logging command wrapper `Command.Run`
(label, argument vector); `cmdOutput` is `exec.Command(...).Output()`
returning captured stdout; `cmdRun` is `exec.Command(...).Run()`;
`mountSys`/`unmountSys` are the mount/unmount syscalls; `openFile` and
`truncateFile` are the image-file operations of the host path. -/
structure Exec where
  runCmd : String → List String → Except String Unit
  cmdOutput : List String → Except String String
  cmdRun : List String → Except String Unit
  mountSys : String → String → String → Except String Unit
  unmountSys : String → Except String Unit
  openFile : String → Except String Unit
  truncateFile : Int → Except String Unit

/-- Observable side effects, recorded in order of execution. -/
inductive Op where
  | runCmd (label : String) (cmdline : List String)
  | execCmd (cmdline : List String)
  | mount (dev : String) (mntpath : String) (fstype : String)
  | unmount (mntpath : String)
  | mkdir (dir : String)
deriving Repr, DecidableEq

/-- Models Go's `path.Join` as plain separator concatenation.  Go
additionally cleans the result (collapsing duplicate separators); every
property proved below depends only on which components are joined and
in which order, never on the cleaned spelling. -/
def pathJoin (a b : String) : String := a ++ "/" ++ b

/-- Dereference a mountpoint's `part` pointer: the partition it points
at inside the action's partition list, `none` when the pointer is nil
or dangling (dereferencing it in Go would panic). -/
def derefPart (i : ImagePartitionAction) (m : Mountpoint) : Option Partition :=
  match m.part with
  | none => none
  | some idx => i.Partitions[idx]?

/-- Function `getPartitionDevice` from `image_partition_action.go`: the backing
device path plus suffix `p<number>` when the path's last byte is an
ASCII digit, plus `<number>` otherwise.  The Go code indexes
`context.image[len(context.image)-1]`, which panics on the empty path;
`none` models that panic.  (Go inspects the final byte while this model
inspects the final character; they classify identically, because the
trailing byte of a multi-byte UTF-8 character is never an ASCII digit
and such a character is itself never in the range `'0'..'9'`.) -/
def getPartitionDevice (number : Nat) (image : String) : Option String :=
  if image = "" then none
  else
    let last := image.back
    if '0' ≤ last ∧ last ≤ '9' then some (image ++ "p" ++ toString number)
    else some (image ++ toString number)

/-- Drop leading whitespace characters from a character list. -/
def dropWhileWS : List Char → List Char
  | [] => []
  | c :: cs => if c.isWhitespace then dropWhileWS cs else c :: cs

/-- Models Go's `strings.TrimSpace`: remove leading and trailing
whitespace. -/
def trimSpace (s : String) : String :=
  ⟨(dropWhileWS ((dropWhileWS s.data).reverse)).reverse⟩

/-- One fstab line as written by `generateFSTab`:
`UUID=%s\t%s\t%s\t%s\t0\t0\n`. -/
def fstabLine (p : Partition) (m : Mountpoint) (options : List String) : String :=
  "UUID=" ++ p.FSUUID ++ "\t" ++ m.Mountpoint ++ "\t" ++ p.FS ++ "\t" ++
    String.intercalate "," options ++ "\t0\t0\n"

/-- The mountpoint loop of `generateFSTab`: append one line per
mountpoint to the context's fstab buffer; an empty resolved UUID is an
error, a nil `part` pointer a panic (`none`). -/
def generateFSTabGo (i : ImagePartitionAction) :
    List Mountpoint → DebosContext → Option (Except String DebosContext)
  | [], ctx => some (.ok ctx)
  | m :: rest, ctx =>
    match derefPart i m with
    | none => none
    | some p =>
      let options := "defaults" :: m.Options
      if p.FSUUID = "" then
        some (.error ("Missing fs UUID for partition " ++ p.Name ++ "!?!"))
      else
        generateFSTabGo i rest
          { ctx with imageFSTab := ctx.imageFSTab ++ fstabLine p m options }

/-- Function `generateFSTab` from `image_partition_action.go`: reset the buffer
(`context.imageFSTab.Reset()`), then write one line per mountpoint. -/
def generateFSTab (i : ImagePartitionAction) (ctx : DebosContext) :
    Option (Except String DebosContext) :=
  generateFSTabGo i i.Mountpoints { ctx with imageFSTab := "" }

/-- The mountpoint scan of `generateKernelRoot`: stop at the first
mountpoint whose target is `/`, requiring its UUID to be non-empty. -/
def generateKernelRootGo (i : ImagePartitionAction) :
    List Mountpoint → DebosContext → Option (Except String DebosContext)
  | [], ctx => some (.ok ctx)
  | m :: rest, ctx =>
    if m.Mountpoint = "/" then
      match derefPart i m with
      | none => none
      | some p =>
        if p.FSUUID = "" then some (.error "No fs UUID for root partition !?!")
        else some (.ok { ctx with imageKernelRoot := "root=UUID=" ++ p.FSUUID })
    else generateKernelRootGo i rest ctx

/-- Function `generateKernelRoot` from `image_partition_action.go`. -/
def generateKernelRoot (i : ImagePartitionAction) (ctx : DebosContext) :
    Option (Except String DebosContext) :=
  generateKernelRootGo i i.Mountpoints ctx

/-- Function `formatPartition` from `image_partition_action.go`.  The mkfs
command is issued through the command wrapper but its result is
discarded by the source (`Command{}.Run(label, cmdline...)` with no
error check); only a failure of the blkid UUID probe is returned as an
error.  The device-path computation panics (`none`) on an empty backing
path. -/
def formatPartition (p : Partition) (ctx : DebosContext) (ex : Exec) :
    Option (List Op × Except String Partition) :=
  let label := "Formatting partition " ++ toString p.number
  match getPartitionDevice p.number ctx.image with
  | none => none
  | some path =>
    let cmdline :=
      (if p.FS = "fat32" then ["mkfs.vfat", "-n", p.Name]
       else ["mkfs." ++ p.FS, "-L", p.Name]) ++ [path]
    let _ := ex.runCmd label cmdline
    let blkidCmd := ["blkid", "-o", "value", "-s", "UUID", "-p", "-c", "none", path]
    match ex.cmdOutput blkidCmd with
    | .error e =>
      some ([Op.runCmd label cmdline, Op.execCmd blkidCmd],
        .error ("Failed to get uuid: " ++ e))
    | .ok uuid =>
      some ([Op.runCmd label cmdline, Op.execCmd blkidCmd],
        .ok { p with FSUUID := trimSpace uuid })

/-- Function `PreNoMachine` from `image_partition_action.go` (host-loop
provisioning).  The method's receiver is a *value* (`func (i
ImagePartitionAction) PreNoMachine`), so the returned first component
is the method's local copy of the action — the Go caller's action
object is left unchanged by the call, and the `i.usingLoop = true`
assignment is only visible on that discarded copy.  The context is
passed by pointer, so its update survives. -/
def PreNoMachine (i : ImagePartitionAction) (ctx : DebosContext) (ex : Exec) :
    Except String (ImagePartitionAction × DebosContext) :=
  match ex.openFile i.ImageName with
  | .error e => .error ("Couldn't open image file: " ++ e)
  | .ok _ =>
    match ex.truncateFile i.size with
    | .error e => .error ("Couldn't resize image file: " ++ e)
    | .ok _ =>
      match ex.cmdOutput ["losetup", "-f", "--show", i.ImageName] with
      | .error _ => .error "Failed to setup loop device"
      | .ok loop =>
        .ok ({ i with usingLoop := true }, { ctx with image := trimSpace loop })

/-- Function `Cleanup` from `image_partition_action.go`: attempt to unmount every
mountpoint in reverse declaration order, each unmount result discarded
(`syscall.Unmount(mntpath, 0)` with no error check), then detach the
loop device iff `usingLoop` is set (its result discarded as well), and
return nil unconditionally. -/
def Cleanup (i : ImagePartitionAction) (ctx : DebosContext) (ex : Exec) :
    List Op × Except String Unit :=
  let unmounts := i.Mountpoints.reverse.map (fun m =>
    let mntpath := pathJoin ctx.imageMntDir m.Mountpoint
    let _ := ex.unmountSys mntpath
    Op.unmount mntpath)
  if i.usingLoop then
    let _ := ex.cmdRun ["losetup", "-d", ctx.image]
    (unmounts ++ [Op.execCmd ["losetup", "-d", ctx.image]], .ok ())
  else (unmounts, .ok ())

/-- The partition scan of `Verify`'s mountpoint-resolution loop: the
index of the first partition whose name equals the mountpoint's
partition reference (`if m.Partition == p.Name { ...; break }`),
counting from `k`. -/
def findPart (name : String) : List Partition → Nat → Option Nat
  | [], _ => none
  | p :: rest, k => if name == p.Name then some k else findPart name rest (k + 1)

/-- The partition loop of `Verify`: assign ordinals `num, num+1, ...`
in declaration order and reject any partition with an empty name,
start, end, or filesystem type. -/
def numberAndCheck : Nat → List Partition → Except String (List Partition)
  | _, [] => .ok []
  | num, p :: rest =>
    if p.Name = "" then .error "Partition without a name"
    else if p.Start = "" then .error ("Partition " ++ p.Name ++ " missing start")
    else if p.End = "" then .error ("Partition " ++ p.Name ++ " missing end")
    else if p.FS = "" then .error ("Partition " ++ p.Name ++ " missing fs type")
    else
      match numberAndCheck (num + 1) rest with
      | .error e => .error e
      | .ok rest' => .ok ({ p with number := num } :: rest')

/-- The mountpoint loop of `Verify`: bind each mountpoint's `part`
pointer to the first name-matching partition; when no partition
matches, the pointer keeps its previous value, and a still-nil pointer
is rejected with an error naming the mountpoint (the `fount` typo is
the source's). -/
def resolveMounts (parts : List Partition) : List Mountpoint → Except String (List Mountpoint)
  | [] => .ok []
  | m :: rest =>
    let mpart := match findPart m.Partition parts 0 with
      | some j => some j
      | none => m.part
    match mpart with
    | none => .error ("Couldn't fount partition for " ++ m.Mountpoint)
    | some j =>
      match resolveMounts parts rest with
      | .error e => .error e
      | .ok rest' => .ok ({ m with part := some j } :: rest')

/-- Function `Verify` from `image_partition_action.go` (pointer receiver: its
mutations persist into the caller's action, so the updated action is
returned).  `units.FromHumanSize` belongs to an external library and
is supplied as the `parseSize` oracle; on its failure the source drops
the library error and reports the unparsed string. -/
def Verify (parseSize : String → Except String Int) (i : ImagePartitionAction) :
    Except String ImagePartitionAction :=
  match numberAndCheck 1 i.Partitions with
  | .error e => .error e
  | .ok parts =>
    match resolveMounts parts i.Mountpoints with
    | .error e => .error e
    | .ok mounts =>
      match parseSize i.ImageSize with
      | .error _ => .error ("Failed to parse image size: " ++ i.ImageSize)
      | .ok size => .ok { i with Partitions := parts, Mountpoints := mounts, size := size }

/-- The flag loop of `Run`: one `parted ... set <number> <flag> on`
command per declared flag, aborting at the first failure. -/
def setFlags (image : String) (number : Nat) (ex : Exec) :
    List String → List Op × Except String Unit
  | [] => ([], .ok ())
  | flag :: rest =>
    let c := ["parted", "-s", image, "set", toString number, flag, "on"]
    match ex.runCmd "parted" c with
    | .error e => ([Op.runCmd "parted" c], .error e)
    | .ok _ =>
      let r := setFlags image number ex rest
      (Op.runCmd "parted" c :: r.fst, r.snd)

/-- The per-partition loop of `Run`: `mkpart` (with the partition's own
name on a gpt table, `"primary"` otherwise), then the flag commands,
then `formatPartition`; each checked failure aborts the loop, and the
formatted partitions (UUIDs filled in, mutated in place through the
shared slice in Go) are collected in order. -/
def partitionLoop (i : ImagePartitionAction) (ctx : DebosContext) (ex : Exec) :
    List Partition → Option (List Op × Except String (List Partition))
  | [] => some ([], .ok [])
  | p :: rest =>
    let name := if i.PartitionType = "gpt" then p.Name else "primary"
    let mk := ["parted", "-a", "none", "-s", ctx.image, "mkpart", name, p.FS, p.Start, p.End]
    match ex.runCmd "parted" mk with
    | .error e => some ([Op.runCmd "parted" mk], .error e)
    | .ok _ =>
      let fl := setFlags ctx.image p.number ex p.Flags
      match fl.snd with
      | .error e => some (Op.runCmd "parted" mk :: fl.fst, .error e)
      | .ok _ =>
        match formatPartition p ctx ex with
        | none => none
        | some (fops, .error e) =>
          some (Op.runCmd "parted" mk :: fl.fst ++ fops, .error e)
        | some (fops, .ok p') =>
          match partitionLoop i ctx ex rest with
          | none => none
          | some (ops, .error e) =>
            some (Op.runCmd "parted" mk :: fl.fst ++ fops ++ ops, .error e)
          | some (ops, .ok rest') =>
            some (Op.runCmd "parted" mk :: fl.fst ++ fops ++ ops, .ok (p' :: rest'))

/-- The mountpoint loop of `Run`: for each mountpoint in declaration
order, dereference its bound partition (nil pointer panics), compute
the partition device, create the mount directory (`os.MkdirAll` result
discarded by the source), translate `fat32` to the mount type `vfat`,
and mount; a mount failure is fatal and names the partition. -/
def mountLoop (i : ImagePartitionAction) (ctx : DebosContext) (ex : Exec) :
    List Mountpoint → Option (List Op × Except String Unit)
  | [] => some ([], .ok ())
  | m :: rest =>
    match derefPart i m with
    | none => none
    | some p =>
      match getPartitionDevice p.number ctx.image with
      | none => none
      | some dev =>
        let mntpath := pathJoin ctx.imageMntDir m.Mountpoint
        let fs := if p.FS = "fat32" then "vfat" else p.FS
        match ex.mountSys dev mntpath fs with
        | .error e =>
          some ([Op.mkdir mntpath, Op.mount dev mntpath fs],
            .error (p.Name ++ " mount failed: " ++ e))
        | .ok _ =>
          match mountLoop i ctx ex rest with
          | none => none
          | some (ops, r) => some (Op.mkdir mntpath :: Op.mount dev mntpath fs :: ops, r)

/-- Function `Run` from `image_partition_action.go`: `mklabel`, the partition
loop, the mount phase (the scratch `mnt` directory is recorded in the
context before mounting, surviving later failures since the context is
passed by pointer), then the two artifact generators.  The returned
context is the context state at exit, error or not; on an
artifact-generation error only the claims-irrelevant partially written
fstab buffer is not reflected in it. -/
def Run (i : ImagePartitionAction) (ctx : DebosContext) (ex : Exec) :
    Option (List Op × DebosContext × Except String ImagePartitionAction) :=
  let lbl := ["parted", "-s", ctx.image, "mklabel", i.PartitionType]
  match ex.runCmd "parted" lbl with
  | .error e => some ([Op.runCmd "parted" lbl], ctx, .error e)
  | .ok _ =>
    match partitionLoop i ctx ex i.Partitions with
    | none => none
    | some (ops, .error e) => some (Op.runCmd "parted" lbl :: ops, ctx, .error e)
    | some (ops, .ok parts) =>
      let i' := { i with Partitions := parts }
      let ctx₁ := { ctx with imageMntDir := pathJoin ctx.scratchdir "mnt" }
      let ops₁ := Op.runCmd "parted" lbl :: ops ++ [Op.mkdir ctx₁.imageMntDir]
      match mountLoop i' ctx₁ ex i'.Mountpoints with
      | none => none
      | some (mops, .error e) => some (ops₁ ++ mops, ctx₁, .error e)
      | some (mops, .ok _) =>
        match generateFSTab i' ctx₁ with
        | none => none
        | some (.error e) => some (ops₁ ++ mops, ctx₁, .error e)
        | some (.ok ctx₂) =>
          match generateKernelRoot i' ctx₂ with
          | none => none
          | some (.error e) => some (ops₁ ++ mops, ctx₂, .error e)
          | some (.ok ctx₃) => some (ops₁ ++ mops, ctx₃, .ok i')

/-- Modelled from the spec: the lifecycle driver (the recipe-running
engine, outside this file's source) invokes `Verify`, then the
provisioning hook of the selected path, then `Run`, stopping at the
first error, and invokes `Cleanup` on every exit path once provisioning
has succeeded.  Host path shown.  Go method-call semantics apply:
`Verify` has a pointer receiver, so its mutations persist;
`PreNoMachine`, `Run` and `Cleanup` have value receivers, so the driver
keeps its own action value across those calls (`Run`'s partition-slice
mutations share backing storage but are not read by `Cleanup`). -/
def hostPipeline (parseSize : String → Except String Int)
    (i : ImagePartitionAction) (ctx : DebosContext) (ex : Exec) :
    Option (List Op × Except String Unit) :=
  match Verify parseSize i with
  | .error e => some ([], .error e)
  | .ok i₁ =>
    match PreNoMachine i₁ ctx ex with
    | .error e => some ([], .error e)
    | .ok (_, ctx₁) =>
      match Run i₁ ctx₁ ex with
      | none => none
      | some (ops, ctx₂, r) =>
        let c := Cleanup i₁ ctx₂ ex
        some (ops ++ c.fst, match r with | .error e => .error e | .ok _ => c.snd)

/-! ## Helpers for the claim theorems -/

/-- The unmount attempts recorded in a trace, in execution order. -/
def unmountsOf : List Op → List String :=
  List.filterMap (fun op => match op with | Op.unmount mp => some mp | _ => none)

/-- Whether an operation is the loop-device detach command. -/
def isLosetupDetach : Op → Bool
  | Op.execCmd ("losetup" :: "-d" :: _) => true
  | _ => false

/-- Whether an operation is an unmount attempt. -/
def isUnmount : Op → Bool
  | Op.unmount _ => true
  | _ => false

/-- Oracle in which every external operation succeeds with empty output. -/
def exTrivial : Exec :=
  ⟨fun _ _ => .ok (), fun _ => .ok "", fun _ => .ok (),
   fun _ _ _ => .ok (), fun _ => .ok (), fun _ => .ok (), fun _ => .ok ()⟩

lemma unmountsOf_append (l₁ l₂ : List Op) :
    unmountsOf (l₁ ++ l₂) = unmountsOf l₁ ++ unmountsOf l₂ :=
  List.filterMap_append l₁ l₂ _

lemma unmountsOf_map_unmount (g : Mountpoint → String) (ms : List Mountpoint) :
    unmountsOf (ms.map fun m => Op.unmount (g m)) = ms.map g := by
  induction ms with
  | nil => rfl
  | cons m rest ih => simpa [unmountsOf, List.filterMap_cons] using ih

/-! ## C3: cleanup unmounts in reverse order, best-effort -/

/-- C3: `Cleanup` attempts to unmount every mountpoint in exactly
the reverse of the declared mount order, the attempts made are the same
whatever the outcome of each individual unmount (the source discards
every unmount result, so one failure cannot suppress the remaining
attempts), and `Cleanup` reports success unconditionally. -/
theorem cleanup_unmounts_reverse_best_effort (i : ImagePartitionAction)
    (ctx : DebosContext) (ex₁ ex₂ : Exec) :
    (Cleanup i ctx ex₁).fst = (Cleanup i ctx ex₂).fst ∧
    unmountsOf (Cleanup i ctx ex₁).fst
      = i.Mountpoints.reverse.map (fun m => pathJoin ctx.imageMntDir m.Mountpoint) ∧
    (Cleanup i ctx ex₁).snd = .ok () := by
  refine ⟨rfl, ?_, ?_⟩
  · have key : ∀ ms : List Mountpoint, List.filterMap
        ((fun op => match op with | Op.unmount mp => some mp | _ => none) ∘
          fun m => Op.unmount (pathJoin ctx.imageMntDir m.Mountpoint)) ms
        = ms.map (fun m => pathJoin ctx.imageMntDir m.Mountpoint) := by
      intro ms
      induction ms with
      | nil => rfl
      | cons m t ih => simp [List.filterMap_cons, ih]
    unfold Cleanup
    by_cases h : i.usingLoop <;>
      simp [h, unmountsOf_append, unmountsOf, List.filterMap_map, key]
  · unfold Cleanup
    by_cases h : i.usingLoop <;> simp [h]

/-! ## C5: partition device path suffix convention -/

/-- The source's byte-range test coincides with decimal-digit-ness. -/
lemma isDigit_iff (c : Char) : c.isDigit = true ↔ ('0' ≤ c ∧ c ≤ '9') := by
  simp [Char.isDigit, Char.le_def]

/-- C5: for a non-empty backing device path, the partition device
for ordinal `n` is the path with suffix `p<n>` when the path's last
character is a decimal digit, and with suffix `<n>` otherwise. -/
theorem getPartitionDevice_suffix (image : String) (n : Nat) (h : image ≠ "") :
    (image.back.isDigit = true →
      getPartitionDevice n image = some (image ++ "p" ++ toString n)) ∧
    (image.back.isDigit = false →
      getPartitionDevice n image = some (image ++ toString n)) := by
  unfold getPartitionDevice
  rw [if_neg h]
  constructor
  · intro hd
    show (if '0' ≤ image.back ∧ image.back ≤ '9'
      then some (image ++ "p" ++ toString n)
      else some (image ++ toString n)) = some (image ++ "p" ++ toString n)
    rw [if_pos ((isDigit_iff _).1 hd)]
  · intro hd
    have hn : ¬('0' ≤ image.back ∧ image.back ≤ '9') := by
      intro hc
      rw [(isDigit_iff _).2 hc] at hd
      exact Bool.noConfusion hd
    show (if '0' ≤ image.back ∧ image.back ≤ '9'
      then some (image ++ "p" ++ toString n)
      else some (image ++ toString n)) = some (image ++ toString n)
    rw [if_neg hn]

/-- Witness for C5 at the spec's two examples. -/
theorem getPartitionDevice_suffix_witness :
    getPartitionDevice 2 "/dev/vda" = some "/dev/vda2" ∧
    getPartitionDevice 1 "/dev/nvme0n1" = some "/dev/nvme0n1p1" := by
  constructor
  · have h := (getPartitionDevice_suffix "/dev/vda" 2 (by decide)).2 (by decide)
    exact h.trans (by decide)
  · have h := (getPartitionDevice_suffix "/dev/nvme0n1" 1 (by decide)).1 (by decide)
    exact h.trans (by decide)

/-! ## C10: callers need a non-empty backing path -/

/-- C10: `getPartitionDevice` is undefined (a Go index-out-of-range
panic, modelled as `none`) exactly on the empty backing path, and both
of its callers inherit that partiality: `formatPartition` panics for a
context with an empty image path, as does the mount phase of `Run` on
its first bound mountpoint, so formatting and mounting implicitly
require a provisioning step to have recorded a non-empty device path. -/
theorem partition_device_requires_nonempty_path :
    (∀ (n : Nat) (image : String), getPartitionDevice n image = none ↔ image = "") ∧
    (∀ (p : Partition) (ctx : DebosContext) (ex : Exec),
      ctx.image = "" → formatPartition p ctx ex = none) ∧
    (∀ (i : ImagePartitionAction) (ctx : DebosContext) (ex : Exec)
      (m : Mountpoint) (rest : List Mountpoint),
      ctx.image = "" → (derefPart i m).isSome →
      mountLoop i ctx ex (m :: rest) = none) := by
  refine ⟨?_, ?_, ?_⟩
  · intro n image
    constructor
    · intro h
      by_contra hne
      unfold getPartitionDevice at h
      rw [if_neg hne] at h
      dsimp only at h
      split at h <;> exact Option.noConfusion h
    · intro h
      subst h
      rfl
  · intro p ctx ex h
    simp [formatPartition, h, getPartitionDevice]
  · intro i ctx ex m rest h hsome
    obtain ⟨p, hp⟩ := Option.isSome_iff_exists.1 hsome
    simp [mountLoop, hp, h, getPartitionDevice]

/-- Witness for C10 at concrete inputs. -/
theorem partition_device_requires_nonempty_path_witness :
    getPartitionDevice 1 "" = none ∧
    formatPartition {} { image := "" } exTrivial = none := by
  constructor
  · exact (partition_device_requires_nonempty_path.1 1 "").mpr rfl
  · exact partition_device_requires_nonempty_path.2.1 {} { image := "" } exTrivial rfl

/-! ## C4: Verify assigns dense ordinals and mutates nothing else -/

/-- Every field of a partition except the assigned ordinal. -/
def partitionFields (p : Partition) :
    String × String × String × String × List String × String :=
  (p.Name, p.Start, p.End, p.FS, p.Flags, p.FSUUID)

lemma numberAndCheck_ok (ps : List Partition) :
    ∀ (num : Nat) (ps' : List Partition), numberAndCheck num ps = .ok ps' →
      ps'.map (fun p => p.number) = List.range' num ps.length ∧
      ps'.map partitionFields = ps.map partitionFields := by
  induction ps with
  | nil =>
    intro num ps' h
    cases h
    simp
  | cons p rest ih =>
    intro num ps' h
    unfold numberAndCheck at h
    split at h
    · exact Except.noConfusion h
    · split at h
      · exact Except.noConfusion h
      · split at h
        · exact Except.noConfusion h
        · split at h
          · exact Except.noConfusion h
          · split at h
            · exact Except.noConfusion h
            · rename_i rest' hrest
              cases h
              obtain ⟨ih1, ih2⟩ := ih (num + 1) rest' hrest
              refine ⟨?_, ?_⟩
              · rw [List.map_cons, ih1, List.length_cons, List.range'_succ]
              · rw [List.map_cons, List.map_cons, ih2]
                rfl

/-- C4: when `Verify` succeeds on a list of `N` partitions, the
assigned ordinals are exactly `1..N` in declaration order (no gaps,
duplicates, or reordering), and every other partition field is left
exactly as declared. -/
theorem verify_assigns_dense_ordinals (parseSize : String → Except String Int)
    (i i' : ImagePartitionAction) (h : Verify parseSize i = .ok i') :
    i'.Partitions.map (fun p => p.number) = List.range' 1 i.Partitions.length ∧
    i'.Partitions.map partitionFields = i.Partitions.map partitionFields := by
  unfold Verify at h
  cases hn : numberAndCheck 1 i.Partitions with
  | error e => rw [hn] at h; exact Except.noConfusion h
  | ok parts =>
    rw [hn] at h
    dsimp only at h
    cases hr : resolveMounts parts i.Mountpoints with
    | error e => rw [hr] at h; exact Except.noConfusion h
    | ok ms =>
      rw [hr] at h
      dsimp only at h
      cases hs : parseSize i.ImageSize with
      | error e => rw [hs] at h; exact Except.noConfusion h
      | ok sz =>
        rw [hs] at h
        dsimp only at h
        injection h with h
        subst h
        simpa using numberAndCheck_ok i.Partitions 1 parts hn

/-- A declared single-partition action, as parsed from a recipe. -/
def hostAction : ImagePartitionAction :=
  { ImageName := "disk.img", ImageSize := "1GiB", PartitionType := "gpt",
    Partitions := [{ Name := "root", Start := "0%", End := "100%", FS := "ext4" }],
    Mountpoints := [{ Mountpoint := "/", Partition := "root" }] }

/-- The result of `Verify` on `hostAction` with a 1 GiB parsed size. -/
def hostActionVerified : ImagePartitionAction :=
  { hostAction with
    Partitions := [{ number := 1, Name := "root", Start := "0%", End := "100%", FS := "ext4" }],
    Mountpoints := [{ Mountpoint := "/", Partition := "root", part := some 0 }],
    size := 1073741824 }

/-- Witness for C4 on `hostAction`. -/
theorem verify_assigns_dense_ordinals_witness :
    hostActionVerified.Partitions.map (fun p => p.number)
      = List.range' 1 hostAction.Partitions.length ∧
    hostActionVerified.Partitions.map partitionFields
      = hostAction.Partitions.map partitionFields :=
  verify_assigns_dense_ordinals (fun _ => .ok 1073741824) hostAction hostActionVerified rfl

/-! ## C6: mountpoint resolution scans in order, first match wins -/

lemma findPart_eq_none (name : String) :
    ∀ (ps : List Partition) (k : Nat),
      findPart name ps k = none ↔ ∀ p ∈ ps, name ≠ p.Name := by
  intro ps
  induction ps with
  | nil => intro k; simp [findPart]
  | cons p rest ih =>
    intro k
    by_cases h : name = p.Name
    · simp [findPart, h]
    · simp [findPart, h, ih (k + 1)]

lemma findPart_eq_some (name : String) :
    ∀ (ps : List Partition) (k j : Nat), findPart name ps k = some j →
      ∃ d, j = k + d ∧ (∃ x, ps[d]? = some x ∧ name = x.Name) ∧
        ∀ d' < d, ∀ y, ps[d']? = some y → name ≠ y.Name := by
  intro ps
  induction ps with
  | nil => intro k j h; exact Option.noConfusion h
  | cons p rest ih =>
    intro k j h
    by_cases hb : name = p.Name
    · simp [findPart, hb] at h
      refine ⟨0, by omega, ⟨p, by simp, hb⟩, ?_⟩
      intro d' hd'
      omega
    · simp [findPart, hb] at h
      obtain ⟨d, hj, ⟨x, hx, hnx⟩, hmin⟩ := ih (k + 1) j h
      refine ⟨d + 1, by omega, ⟨x, by simpa using hx, hnx⟩, ?_⟩
      intro d' hd' y hy
      cases d' with
      | zero =>
        simp at hy
        rw [← hy]
        exact hb
      | succ d'' =>
        exact hmin d'' (by omega) y (by simpa using hy)

lemma resolveMounts_ok_binds (parts : List Partition) :
    ∀ (ms ms' : List Mountpoint), (∀ m ∈ ms, m.part = none) →
      resolveMounts parts ms = .ok ms' →
      ∀ (k : Nat) (m' : Mountpoint), ms'[k]? = some m' →
        ∃ m, ms[k]? = some m ∧ m'.Partition = m.Partition ∧
          ∃ j, m'.part = some j ∧ findPart m'.Partition parts 0 = some j := by
  intro ms
  induction ms with
  | nil =>
    intro ms' _ h k m' hk
    cases h
    simp at hk
  | cons m rest ih =>
    intro ms' hnil h k m' hk
    unfold resolveMounts at h
    cases hf : findPart m.Partition parts 0 with
    | none =>
      rw [hf] at h
      dsimp only at h
      rw [hnil m (by simp)] at h
      exact Except.noConfusion h
    | some j =>
      rw [hf] at h
      dsimp only at h
      cases hr : resolveMounts parts rest with
      | error e => rw [hr] at h; exact Except.noConfusion h
      | ok rest' =>
        rw [hr] at h
        injection h with h
        subst h
        cases k with
        | zero =>
          simp at hk
          refine ⟨m, by simp, ?_⟩
          rw [← hk]
          exact ⟨rfl, j, rfl, hf⟩
        | succ k' =>
          simp only [List.getElem?_cons_succ] at hk
          obtain ⟨m₀, hm₀, hpart, hbind⟩ :=
            ih rest' (fun x hx => hnil x (by simp [hx])) hr k' m' hk
          exact ⟨m₀, by simpa using hm₀, hpart, hbind⟩

lemma resolveMounts_error (parts : List Partition) :
    ∀ ms : List Mountpoint, (∀ m ∈ ms, m.part = none) →
      (∃ m ∈ ms, ∀ p ∈ parts, m.Partition ≠ p.Name) →
      ∃ m₀ ∈ ms, (∀ p ∈ parts, m₀.Partition ≠ p.Name) ∧
        resolveMounts parts ms
          = .error ("Couldn't fount partition for " ++ m₀.Mountpoint) := by
  intro ms
  induction ms with
  | nil => simp
  | cons m rest ih =>
    intro hnil hbad
    by_cases hm : ∀ p ∈ parts, m.Partition ≠ p.Name
    · have hf : findPart m.Partition parts 0 = none :=
        (findPart_eq_none m.Partition parts 0).2 hm
      refine ⟨m, by simp, hm, ?_⟩
      unfold resolveMounts
      rw [hf]
      dsimp only
      rw [hnil m (by simp)]
    · obtain ⟨mb, hmb, hmbbad⟩ := hbad
      have hmbrest : mb ∈ rest := by
        cases List.mem_cons.1 hmb with
        | inl he => exact absurd (he ▸ hmbbad) hm
        | inr hr => exact hr
      obtain ⟨m₀, hm₀mem, hm₀bad, herr⟩ :=
        ih (fun x hx => hnil x (by simp [hx])) ⟨mb, hmbrest, hmbbad⟩
      refine ⟨m₀, by simp [hm₀mem], hm₀bad, ?_⟩
      have hf : ¬ findPart m.Partition parts 0 = none := by
        rw [findPart_eq_none]
        exact hm
      obtain ⟨j, hj⟩ := Option.ne_none_iff_exists'.1 hf
      unfold resolveMounts
      rw [hj]
      dsimp only
      rw [herr]

lemma names_eq_of_fields_eq (ps ps' : List Partition)
    (h : ps'.map partitionFields = ps.map partitionFields) :
    ps'.map (fun p => p.Name) = ps.map (fun p => p.Name) := by
  have h2 := congrArg (List.map Prod.fst) h
  simpa [List.map_map, Function.comp, partitionFields] using h2

lemma numberAndCheck_total (ps : List Partition) :
    ∀ num : Nat, (∀ p ∈ ps, p.Name ≠ "" ∧ p.Start ≠ "" ∧ p.End ≠ "" ∧ p.FS ≠ "") →
      ∃ ps', numberAndCheck num ps = .ok ps' := by
  induction ps with
  | nil => intro num _; exact ⟨[], rfl⟩
  | cons p rest ih =>
    intro num hf
    obtain ⟨h1, h2, h3, h4⟩ := hf p (by simp)
    obtain ⟨rest', hrest⟩ := ih (num + 1) (fun x hx => hf x (by simp [hx]))
    refine ⟨{ p with number := num } :: rest', ?_⟩
    unfold numberAndCheck
    rw [if_neg h1, if_neg h2, if_neg h3, if_neg h4, hrest]

/-- C6: during validation each mountpoint's partition reference is
bound to the first name-matching partition in declaration order, and a
mountpoint with no matching partition makes `Verify` fail with an error
naming the mountpoint, in which case the lifecycle driver executes no
partitioning, formatting, or mounting operation (empty trace).  The
`part = none` hypotheses are the Go zero value of the unexported
pointer field at recipe-parse time. -/
theorem verify_resolution_first_match_or_reject
    (parseSize : String → Except String Int) :
    (∀ (i i' : ImagePartitionAction), (∀ m ∈ i.Mountpoints, m.part = none) →
      Verify parseSize i = .ok i' →
      ∀ (k : Nat) (m' : Mountpoint), i'.Mountpoints[k]? = some m' →
        ∃ j p, m'.part = some j ∧ i'.Partitions[j]? = some p ∧ m'.Partition = p.Name ∧
          ∀ j' < j, ∀ q, i'.Partitions[j']? = some q → m'.Partition ≠ q.Name) ∧
    (∀ (i : ImagePartitionAction) (ctx : DebosContext) (ex : Exec),
      (∀ m ∈ i.Mountpoints, m.part = none) →
      (∀ p ∈ i.Partitions, p.Name ≠ "" ∧ p.Start ≠ "" ∧ p.End ≠ "" ∧ p.FS ≠ "") →
      (∃ m ∈ i.Mountpoints, ∀ p ∈ i.Partitions, m.Partition ≠ p.Name) →
      ∃ m₀ ∈ i.Mountpoints, (∀ p ∈ i.Partitions, m₀.Partition ≠ p.Name) ∧
        Verify parseSize i = .error ("Couldn't fount partition for " ++ m₀.Mountpoint) ∧
        hostPipeline parseSize i ctx ex
          = some ([], .error ("Couldn't fount partition for " ++ m₀.Mountpoint))) := by
  constructor
  · intro i i' hnil h k m' hk
    unfold Verify at h
    cases hn : numberAndCheck 1 i.Partitions with
    | error e => rw [hn] at h; exact Except.noConfusion h
    | ok parts =>
      rw [hn] at h
      dsimp only at h
      cases hr : resolveMounts parts i.Mountpoints with
      | error e => rw [hr] at h; exact Except.noConfusion h
      | ok ms =>
        rw [hr] at h
        dsimp only at h
        cases hs : parseSize i.ImageSize with
        | error e => rw [hs] at h; exact Except.noConfusion h
        | ok sz =>
          rw [hs] at h
          dsimp only at h
          injection h with h
          subst h
          dsimp only at hk
          obtain ⟨m, _, _, j, hj, hfind⟩ :=
            resolveMounts_ok_binds parts i.Mountpoints ms hnil hr k m' hk
          obtain ⟨d, hd, ⟨x, hx, hnx⟩, hmin⟩ :=
            findPart_eq_some m'.Partition parts 0 j hfind
          refine ⟨j, x, hj, ?_, hnx, ?_⟩
          · rw [hd]
            simpa using hx
          · intro j' hj' q hq
            exact hmin j' (by omega) q (by simpa [hd] using hq)
  · intro i ctx ex hnil hfields hbad
    obtain ⟨parts, hparts⟩ := numberAndCheck_total i.Partitions 1 hfields
    have hnames : parts.map (fun p => p.Name) = i.Partitions.map (fun p => p.Name) :=
      names_eq_of_fields_eq i.Partitions parts
        (numberAndCheck_ok i.Partitions 1 parts hparts).2
    have hbad' : ∃ m ∈ i.Mountpoints, ∀ p ∈ parts, m.Partition ≠ p.Name := by
      obtain ⟨m, hm, hmn⟩ := hbad
      refine ⟨m, hm, fun p hp he => ?_⟩
      have : p.Name ∈ parts.map (fun p => p.Name) := List.mem_map_of_mem _ hp
      rw [hnames] at this
      obtain ⟨q, hq, hqe⟩ := List.mem_map.1 this
      exact hmn q hq (he.trans hqe.symm)
    obtain ⟨m₀, hm₀mem, hm₀bad', herr⟩ := resolveMounts_error parts i.Mountpoints hnil hbad'
    have hm₀bad : ∀ p ∈ i.Partitions, m₀.Partition ≠ p.Name := by
      intro p hp he
      have : p.Name ∈ i.Partitions.map (fun p => p.Name) := List.mem_map_of_mem _ hp
      rw [← hnames] at this
      obtain ⟨q, hq, hqe⟩ := List.mem_map.1 this
      exact hm₀bad' q hq (he.trans hqe.symm)
    have hverr : Verify parseSize i
        = .error ("Couldn't fount partition for " ++ m₀.Mountpoint) := by
      unfold Verify
      rw [hparts]
      dsimp only
      rw [herr]
    refine ⟨m₀, hm₀mem, hm₀bad, hverr, ?_⟩
    unfold hostPipeline
    rw [hverr]

/-- A declared action whose mountpoint references no partition. -/
def badRefAction : ImagePartitionAction :=
  { hostAction with Mountpoints := [{ Mountpoint := "/data", Partition := "nope" }] }

/-- Witness for C6: successful first-match binding on `hostAction`,
and rejection (naming the mountpoint, empty pipeline trace) on
`badRefAction`. -/
theorem verify_resolution_first_match_or_reject_witness :
    (∃ j p, (Mountpoint.mk "/" "root" [] (some 0)).part = some j ∧
      hostActionVerified.Partitions[j]? = some p ∧
      (Mountpoint.mk "/" "root" [] (some 0)).Partition = p.Name ∧
      ∀ j' < j, ∀ q, hostActionVerified.Partitions[j']? = some q →
        (Mountpoint.mk "/" "root" [] (some 0)).Partition ≠ q.Name) ∧
    (∃ m₀ ∈ badRefAction.Mountpoints,
      (∀ p ∈ badRefAction.Partitions, m₀.Partition ≠ p.Name) ∧
      Verify (fun _ => .ok 1073741824) badRefAction
        = .error ("Couldn't fount partition for " ++ m₀.Mountpoint) ∧
      hostPipeline (fun _ => .ok 1073741824) badRefAction {} exTrivial
        = some ([], .error ("Couldn't fount partition for " ++ m₀.Mountpoint))) := by
  constructor
  · exact (verify_resolution_first_match_or_reject (fun _ => .ok 1073741824)).1
      hostAction hostActionVerified (by decide) rfl 0 (Mountpoint.mk "/" "root" [] (some 0)) rfl
  · exact (verify_resolution_first_match_or_reject (fun _ => .ok 1073741824)).2
      badRefAction {} exTrivial (by decide) (by decide)
      ⟨{ Mountpoint := "/data", Partition := "nope" }, by decide, by decide⟩

/-! ## C7: fstab generation is idempotent -/

lemma generateFSTabGo_frame (i : ImagePartitionAction) :
    ∀ (ms : List Mountpoint) (ctx ctx' : DebosContext),
      generateFSTabGo i ms ctx = some (.ok ctx') →
      ∃ out, ctx' = { ctx with imageFSTab := out } := by
  intro ms
  induction ms with
  | nil =>
    intro ctx ctx' h
    injection h with h
    injection h with h
    exact ⟨ctx.imageFSTab, h.symm⟩
  | cons m rest ih =>
    intro ctx ctx' h
    unfold generateFSTabGo at h
    cases hd : derefPart i m with
    | none => rw [hd] at h; exact Option.noConfusion h
    | some p =>
      rw [hd] at h
      dsimp only at h
      by_cases hu : p.FSUUID = ""
      · rw [if_pos hu] at h
        injection h with h
        exact Except.noConfusion h
      · rw [if_neg hu] at h
        obtain ⟨out, hout⟩ := ih _ _ h
        exact ⟨out, hout⟩

lemma generateFSTabGo_total (i : ImagePartitionAction) :
    ∀ (ms : List Mountpoint) (ctx : DebosContext),
      (∀ m ∈ ms, ∃ p, derefPart i m = some p ∧ p.FSUUID ≠ "") →
      ∃ ctx', generateFSTabGo i ms ctx = some (.ok ctx') := by
  intro ms
  induction ms with
  | nil => intro ctx _; exact ⟨ctx, rfl⟩
  | cons m rest ih =>
    intro ctx hres
    obtain ⟨p, hp, hu⟩ := hres m (by simp)
    obtain ⟨ctx', hctx'⟩ :=
      ih { ctx with imageFSTab := ctx.imageFSTab ++ fstabLine p m ("defaults" :: m.Options) }
        (fun x hx => hres x (by simp [hx]))
    refine ⟨ctx', ?_⟩
    unfold generateFSTabGo
    rw [hp]
    dsimp only
    rw [if_neg hu]
    exact hctx'

/-- C7: on a resolved model whose referenced partitions all carry a
non-empty UUID, `generateFSTab` succeeds, and invoking it a second time
on the resulting context returns the very same context: the buffer is
reset and fully regenerated, so the two buffer contents are
byte-identical and nothing is duplicated. -/
theorem generateFSTab_idempotent (i : ImagePartitionAction) (ctx : DebosContext)
    (h : ∀ m ∈ i.Mountpoints, ∃ p, derefPart i m = some p ∧ p.FSUUID ≠ "") :
    ∃ ctx', generateFSTab i ctx = some (.ok ctx') ∧
      generateFSTab i ctx' = some (.ok ctx') := by
  obtain ⟨ctx', h1⟩ := generateFSTabGo_total i i.Mountpoints { ctx with imageFSTab := "" } h
  refine ⟨ctx', h1, ?_⟩
  obtain ⟨out, hout⟩ := generateFSTabGo_frame i i.Mountpoints _ _ h1
  subst hout
  exact h1

/-- A fully resolved single-partition model with a non-empty UUID. -/
def resolvedAction : ImagePartitionAction :=
  { Partitions := [{ number := 1, Name := "root", Start := "0%", End := "100%", FS := "ext4", FSUUID := "ABCD-1234" }],
    Mountpoints := [{ Mountpoint := "/", Partition := "root", part := some 0 }] }

/-- Witness for C7 on `resolvedAction`. -/
theorem generateFSTab_idempotent_witness :
    ∃ ctx', generateFSTab resolvedAction {} = some (.ok ctx') ∧
      generateFSTab resolvedAction ctx' = some (.ok ctx') :=
  generateFSTab_idempotent resolvedAction {} (by
    intro m hm
    simp only [resolvedAction, List.mem_singleton] at hm
    subst hm
    exact ⟨_, rfl, by decide⟩)

/-! ## C8: kernel-root generation -/

lemma generateKernelRootGo_first (i : ImagePartitionAction) :
    ∀ (ms : List Mountpoint) (ctx : DebosContext) (m : Mountpoint) (p : Partition),
      ms.filter (fun m' => m'.Mountpoint == "/") = [m] →
      derefPart i m = some p → p.FSUUID ≠ "" →
      generateKernelRootGo i ms ctx
        = some (.ok { ctx with imageKernelRoot := "root=UUID=" ++ p.FSUUID }) := by
  intro ms
  induction ms with
  | nil => intro ctx m p h; simp at h
  | cons a rest ih =>
    intro ctx m p hfil hd hu
    by_cases ha : a.Mountpoint = "/"
    · rw [List.filter_cons_of_pos (by simpa using ha)] at hfil
      injection hfil with h1 _
      subst h1
      unfold generateKernelRootGo
      rw [if_pos ha, hd]
      dsimp only
      rw [if_neg hu]
    · rw [List.filter_cons_of_neg (by simpa using ha)] at hfil
      unfold generateKernelRootGo
      rw [if_neg ha]
      exact ih ctx m p hfil hd hu

lemma generateKernelRootGo_noroot (i : ImagePartitionAction) :
    ∀ (ms : List Mountpoint) (ctx : DebosContext),
      (∀ m ∈ ms, m.Mountpoint ≠ "/") →
      generateKernelRootGo i ms ctx = some (.ok ctx) := by
  intro ms
  induction ms with
  | nil => intro ctx _; rfl
  | cons a rest ih =>
    intro ctx h
    unfold generateKernelRootGo
    rw [if_neg (h a (by simp))]
    exact ih ctx (fun x hx => h x (by simp [hx]))

/-- C8: with a single mountpoint targeting `/` bound to a partition
whose UUID is `ABCD-1234`, kernel-root generation succeeds and sets the
kernel-root string to exactly `root=UUID=ABCD-1234`; with no mountpoint
targeting `/` (and the pipeline's initially empty kernel-root field),
it succeeds and the kernel-root string is the empty string. -/
theorem generateKernelRoot_root_string :
    (∀ (i : ImagePartitionAction) (ctx : DebosContext) (m : Mountpoint) (p : Partition),
      i.Mountpoints.filter (fun m' => m'.Mountpoint == "/") = [m] →
      derefPart i m = some p → p.FSUUID = "ABCD-1234" →
      generateKernelRoot i ctx
        = some (.ok { ctx with imageKernelRoot := "root=UUID=ABCD-1234" })) ∧
    (∀ (i : ImagePartitionAction) (ctx : DebosContext),
      (∀ m ∈ i.Mountpoints, m.Mountpoint ≠ "/") → ctx.imageKernelRoot = "" →
      ∃ c, generateKernelRoot i ctx = some (.ok c) ∧ c.imageKernelRoot = "") := by
  constructor
  · intro i ctx m p hfil hd hu
    have h := generateKernelRootGo_first i i.Mountpoints ctx m p hfil hd
      (by rw [hu]; decide)
    rw [hu] at h
    exact h
  · intro i ctx hno hroot
    exact ⟨ctx, generateKernelRootGo_noroot i i.Mountpoints ctx hno, hroot⟩

/-- A resolved model with no mountpoint targeting the root path. -/
def norootAction : ImagePartitionAction :=
  { resolvedAction with
    Mountpoints := [{ Mountpoint := "/boot", Partition := "root", part := some 0 }] }

/-- Witness for C8: the root case on `resolvedAction` and the rootless
case on `norootAction`. -/
theorem generateKernelRoot_root_string_witness :
    generateKernelRoot resolvedAction {}
      = some (.ok { imageKernelRoot := "root=UUID=ABCD-1234" }) ∧
    (∃ c, generateKernelRoot norootAction {} = some (.ok c) ∧ c.imageKernelRoot = "") := by
  constructor
  · have h := generateKernelRoot_root_string.1 resolvedAction {}
      { Mountpoint := "/", Partition := "root", part := some 0 }
      { number := 1, Name := "root", Start := "0%", End := "100%", FS := "ext4", FSUUID := "ABCD-1234" }
      (by decide) (by decide) rfl
    exact h
  · exact generateKernelRoot_root_string.2 norootAction {} (by decide) rfl

/-! ## C9: missing-UUID guards of the artifact generators -/

lemma generateFSTabGo_error_of_empty (i : ImagePartitionAction) :
    ∀ (ms : List Mountpoint) (ctx : DebosContext),
      (∀ m ∈ ms, (derefPart i m).isSome) →
      (∃ m ∈ ms, ∃ p, derefPart i m = some p ∧ p.FSUUID = "") →
      ∃ e, generateFSTabGo i ms ctx = some (.error e) := by
  intro ms
  induction ms with
  | nil => simp
  | cons a rest ih =>
    intro ctx hres hbad
    obtain ⟨q, hq⟩ := Option.isSome_iff_exists.1 (hres a (by simp))
    by_cases hu : q.FSUUID = ""
    · refine ⟨"Missing fs UUID for partition " ++ q.Name ++ "!?!", ?_⟩
      unfold generateFSTabGo
      rw [hq]
      dsimp only
      rw [if_pos hu]
    · have hbadrest : ∃ m ∈ rest, ∃ p, derefPart i m = some p ∧ p.FSUUID = "" := by
        obtain ⟨m, hm, p, hp, hpu⟩ := hbad
        cases List.mem_cons.1 hm with
        | inl he =>
          subst he
          rw [hq] at hp
          injection hp with hp
          exact absurd (hp ▸ hpu) hu
        | inr hr => exact ⟨m, hr, p, hp, hpu⟩
      obtain ⟨e, he⟩ :=
        ih { ctx with imageFSTab := ctx.imageFSTab ++ fstabLine q a ("defaults" :: a.Options) }
          (fun x hx => hres x (by simp [hx])) hbadrest
      refine ⟨e, ?_⟩
      unfold generateFSTabGo
      rw [hq]
      dsimp only
      rw [if_neg hu]
      exact he

lemma generateKernelRootGo_first_empty (i : ImagePartitionAction) :
    ∀ (ms : List Mountpoint) (ctx : DebosContext) (m : Mountpoint) (p : Partition),
      ms.find? (fun m' => m'.Mountpoint == "/") = some m →
      derefPart i m = some p → p.FSUUID = "" →
      generateKernelRootGo i ms ctx
        = some (.error "No fs UUID for root partition !?!") := by
  intro ms
  induction ms with
  | nil => intro ctx m p h; exact Option.noConfusion h
  | cons a rest ih =>
    intro ctx m p hfind hd hu
    by_cases ha : a.Mountpoint = "/"
    · rw [List.find?_cons_of_pos _ (by simpa using ha)] at hfind
      injection hfind with hfind
      subst hfind
      unfold generateKernelRootGo
      rw [if_pos ha, hd]
      dsimp only
      rw [if_pos hu]
    · rw [List.find?_cons_of_neg _ (by simpa using ha)] at hfind
      unfold generateKernelRootGo
      rw [if_neg ha]
      exact ih ctx m p hfind hd hu

lemma generateKernelRootGo_total (i : ImagePartitionAction) :
    ∀ (ms : List Mountpoint) (ctx : DebosContext),
      (∀ m ∈ ms, ∃ p, derefPart i m = some p ∧ p.FSUUID ≠ "") →
      ∃ c, generateKernelRootGo i ms ctx = some (.ok c) := by
  intro ms
  induction ms with
  | nil => intro ctx _; exact ⟨ctx, rfl⟩
  | cons a rest ih =>
    intro ctx hres
    by_cases ha : a.Mountpoint = "/"
    · obtain ⟨p, hp, hu⟩ := hres a (by simp)
      refine ⟨{ ctx with imageKernelRoot := "root=UUID=" ++ p.FSUUID }, ?_⟩
      unfold generateKernelRootGo
      rw [if_pos ha, hp]
      dsimp only
      rw [if_neg hu]
    · obtain ⟨c, hc⟩ := ih ctx (fun x hx => hres x (by simp [hx]))
      refine ⟨c, ?_⟩
      unfold generateKernelRootGo
      rw [if_neg ha]
      exact hc

/-- A resolved model with two mountpoints targeting `/`: the first
bound to a partition with UUID `X`, the second to one with an empty
UUID. -/
def dupRootAction : ImagePartitionAction :=
  { Partitions := [{ number := 1, Name := "a", Start := "0%", End := "50%", FS := "ext4", FSUUID := "X" },
                   { number := 2, Name := "b", Start := "50%", End := "100%", FS := "ext4", FSUUID := "" }],
    Mountpoints := [{ Mountpoint := "/", Partition := "a", part := some 0 },
                    { Mountpoint := "/", Partition := "b", part := some 1 }] }

/-- Counterexample to C9 as stated: in `dupRootAction` a mountpoint
targets `/` and its bound partition's resolved UUID is empty, yet
`generateKernelRoot` succeeds, because the scan stops at the first
mountpoint targeting `/` and never examines the later one. -/
theorem generateKernelRoot_empty_uuid_no_error :
    (∃ m ∈ dupRootAction.Mountpoints, m.Mountpoint = "/" ∧
      ∃ p, derefPart dupRootAction m = some p ∧ p.FSUUID = "") ∧
    ∃ c, generateKernelRoot dupRootAction {} = some (.ok c) := by
  constructor
  · refine ⟨{ Mountpoint := "/", Partition := "b", part := some 1 }, by decide, rfl, ?_⟩
    exact ⟨{ number := 2, Name := "b", Start := "50%", End := "100%", FS := "ext4", FSUUID := "" }, by decide, rfl⟩
  · exact ⟨{ imageKernelRoot := "root=UUID=X" }, rfl⟩

/-- C9 amended: `generateFSTab` returns an error whenever some
mountpoint's bound partition has an empty resolved UUID;
`generateKernelRoot` returns an error when the *first* mountpoint
targeting `/` has a bound partition with an empty resolved UUID (a
later `/` mountpoint is never examined); with all needed UUIDs
non-empty, both generators succeed. -/
theorem uuid_guards_amended :
    (∀ (i : ImagePartitionAction) (ctx : DebosContext),
      (∀ m ∈ i.Mountpoints, (derefPart i m).isSome) →
      (∃ m ∈ i.Mountpoints, ∃ p, derefPart i m = some p ∧ p.FSUUID = "") →
      ∃ e, generateFSTab i ctx = some (.error e)) ∧
    (∀ (i : ImagePartitionAction) (ctx : DebosContext) (m : Mountpoint) (p : Partition),
      i.Mountpoints.find? (fun m' => m'.Mountpoint == "/") = some m →
      derefPart i m = some p → p.FSUUID = "" →
      generateKernelRoot i ctx = some (.error "No fs UUID for root partition !?!")) ∧
    (∀ (i : ImagePartitionAction) (ctx : DebosContext),
      (∀ m ∈ i.Mountpoints, ∃ p, derefPart i m = some p ∧ p.FSUUID ≠ "") →
      (∃ c, generateFSTab i ctx = some (.ok c)) ∧
      (∃ c, generateKernelRoot i ctx = some (.ok c))) := by
  refine ⟨?_, ?_, ?_⟩
  · intro i ctx hres hbad
    exact generateFSTabGo_error_of_empty i i.Mountpoints { ctx with imageFSTab := "" } hres hbad
  · intro i ctx m p hfind hd hu
    exact generateKernelRootGo_first_empty i i.Mountpoints ctx m p hfind hd hu
  · intro i ctx hres
    exact ⟨generateFSTabGo_total i i.Mountpoints { ctx with imageFSTab := "" } hres,
      generateKernelRootGo_total i i.Mountpoints ctx hres⟩

/-- A resolved model whose single root partition has an empty UUID. -/
def emptyUuidAction : ImagePartitionAction :=
  { Partitions := [{ number := 1, Name := "root", Start := "0%", End := "100%", FS := "ext4", FSUUID := "" }],
    Mountpoints := [{ Mountpoint := "/", Partition := "root", part := some 0 }] }

/-- Witness for the amended C9: both generators fail on
`emptyUuidAction` (empty UUID) and both succeed on `resolvedAction`
(non-empty UUID). -/
theorem uuid_guards_amended_witness :
    (∃ e, generateFSTab emptyUuidAction {} = some (.error e)) ∧
    generateKernelRoot emptyUuidAction {}
      = some (.error "No fs UUID for root partition !?!") ∧
    (∃ c, generateFSTab resolvedAction { scratchdir := "/s" } = some (.ok c)) ∧
    (∃ c, generateKernelRoot resolvedAction { scratchdir := "/s" } = some (.ok c)) := by
  have hres : ∀ m ∈ resolvedAction.Mountpoints,
      ∃ p, derefPart resolvedAction m = some p ∧ p.FSUUID ≠ "" := by
    intro m hm
    simp only [resolvedAction, List.mem_singleton] at hm
    subst hm
    exact ⟨_, rfl, by decide⟩
  refine ⟨?_, ?_, ?_, ?_⟩
  · refine uuid_guards_amended.1 emptyUuidAction {} (by decide) ?_
    refine ⟨{ Mountpoint := "/", Partition := "root", part := some 0 }, by decide, ?_⟩
    exact ⟨{ number := 1, Name := "root", Start := "0%", End := "100%", FS := "ext4", FSUUID := "" }, rfl, rfl⟩
  · exact uuid_guards_amended.2.1 emptyUuidAction {}
      { Mountpoint := "/", Partition := "root", part := some 0 }
      { number := 1, Name := "root", Start := "0%", End := "100%", FS := "ext4", FSUUID := "" }
      (by decide) (by decide) rfl
  · exact (uuid_guards_amended.2.2 resolvedAction { scratchdir := "/s" } hres).1
  · exact (uuid_guards_amended.2.2 resolvedAction { scratchdir := "/s" } hres).2

/-! ## C1: the loop-device detach is never reached -/

/-- Oracle of a fully successful host build: `losetup -f --show` prints
`/dev/loop3`, every other probe prints a UUID, and every command,
mount, and file operation succeeds. -/
def exHost : Exec :=
  { runCmd := fun _ _ => .ok (),
    cmdOutput := fun c => if c.head? = some "losetup" then .ok "/dev/loop3\n" else .ok "ABCD-1234\n",
    cmdRun := fun _ => .ok (),
    mountSys := fun _ _ _ => .ok (),
    unmountSys := fun _ => .ok (),
    openFile := fun _ => .ok (),
    truncateFile := fun _ => .ok () }

/-- The full operation trace of the successful host-path build of
`hostAction` under `exHost`. -/
def c1Trace : List Op :=
  [Op.runCmd "parted" ["parted", "-s", "/dev/loop3", "mklabel", "gpt"],
   Op.runCmd "parted" ["parted", "-a", "none", "-s", "/dev/loop3", "mkpart", "root", "ext4", "0%", "100%"],
   Op.runCmd "Formatting partition 1" ["mkfs.ext4", "-L", "root", "/dev/loop3p1"],
   Op.execCmd ["blkid", "-o", "value", "-s", "UUID", "-p", "-c", "none", "/dev/loop3p1"],
   Op.mkdir "/mnt",
   Op.mkdir "/mnt//",
   Op.mount "/dev/loop3p1" "/mnt//" "ext4",
   Op.unmount "/mnt//"]

/-- C1 (code bug): on a fully successful host-path build,
`PreNoMachine` succeeds — and its local receiver copy does carry
`usingLoop = true` with the loop path recorded in the context — yet the
driver's action value is unchanged by the value-receiver call, so the
whole pipeline's trace contains no `losetup -d` operation even though
the unmount attempt of `Cleanup` does run.  Had the flag survived (as
the spec assumes), `Cleanup` would have emitted exactly the detach of
the recorded loop device after the unmounts. -/
theorem preNoMachine_loop_detach_never_runs :
    (PreNoMachine hostActionVerified {} exHost
      = .ok ({ hostActionVerified with usingLoop := true }, { image := "/dev/loop3" })) ∧
    (hostPipeline (fun _ => .ok 1073741824) hostAction {} exHost
        = some (c1Trace, .ok ()) ∧
      c1Trace.filter isLosetupDetach = [] ∧ (c1Trace.filter isUnmount).length = 1) ∧
    ((Cleanup { hostActionVerified with usingLoop := true }
        { image := "/dev/loop3", imageMntDir := "/mnt" } exHost).fst.filter isLosetupDetach
      = [Op.execCmd ["losetup", "-d", "/dev/loop3"]] ∧
     (Cleanup { hostActionVerified with usingLoop := true }
        { image := "/dev/loop3", imageMntDir := "/mnt" } exHost).fst.getLast?
      = some (Op.execCmd ["losetup", "-d", "/dev/loop3"])) := by
  exact ⟨by rfl, ⟨by rfl, by decide, by decide⟩, by decide, by decide⟩

/-! ## C2: a failed mkfs is not fatal -/

/-- Oracle in which every `mkfs.ext4` invocation fails while the blkid
probe still reports a (stale) UUID and everything else succeeds. -/
def exMkfsFail : Exec :=
  { exHost with
    runCmd := fun _ c => if c.head? = some "mkfs.ext4" then .error "exit status 1" else .ok (),
    cmdOutput := fun c => if c.head? = some "blkid" then .ok "STALE-UUID\n" else .ok "" }

/-- The first partition of the C2 scenario. -/
def c2Part : Partition :=
  { number := 1, Name := "root", Start := "0%", End := "100%", FS := "ext4" }

/-- A resolved two-partition action for the C2 scenario. -/
def c2Action : ImagePartitionAction :=
  { PartitionType := "gpt",
    Partitions := [c2Part, { number := 2, Name := "data", Start := "50%", End := "100%", FS := "ext4" }],
    Mountpoints := [{ Mountpoint := "/", Partition := "root", part := some 0 },
                    { Mountpoint := "/data", Partition := "data", part := some 1 }] }

/-- The full operation trace of `Run` on `c2Action` under
`exMkfsFail`: both mkfs commands fail, yet both partitions are probed
for UUIDs and both mountpoints are mounted. -/
def c2Trace : List Op :=
  [Op.runCmd "parted" ["parted", "-s", "/dev/sda", "mklabel", "gpt"],
   Op.runCmd "parted" ["parted", "-a", "none", "-s", "/dev/sda", "mkpart", "root", "ext4", "0%", "100%"],
   Op.runCmd "Formatting partition 1" ["mkfs.ext4", "-L", "root", "/dev/sda1"],
   Op.execCmd ["blkid", "-o", "value", "-s", "UUID", "-p", "-c", "none", "/dev/sda1"],
   Op.runCmd "parted" ["parted", "-a", "none", "-s", "/dev/sda", "mkpart", "data", "ext4", "50%", "100%"],
   Op.runCmd "Formatting partition 2" ["mkfs.ext4", "-L", "data", "/dev/sda2"],
   Op.execCmd ["blkid", "-o", "value", "-s", "UUID", "-p", "-c", "none", "/dev/sda2"],
   Op.mkdir "/scratch/mnt",
   Op.mkdir "/scratch/mnt//",
   Op.mount "/dev/sda1" "/scratch/mnt//" "ext4",
   Op.mkdir "/scratch/mnt//data",
   Op.mount "/dev/sda2" "/scratch/mnt//data" "ext4"]

/-- The context state after that run. -/
def c2CtxOut : DebosContext :=
  { image := "/dev/sda", imageMntDir := "/scratch/mnt",
    imageFSTab := "UUID=STALE-UUID\t/\text4\tdefaults\t0\t0\nUUID=STALE-UUID\t/data\text4\tdefaults\t0\t0\n",
    imageKernelRoot := "root=UUID=STALE-UUID", scratchdir := "/scratch" }

/-- The action state after that run: both partitions carry the stale
probed UUID. -/
def c2ActionOut : ImagePartitionAction :=
  { c2Action with
    Partitions := [{ c2Part with FSUUID := "STALE-UUID" },
                   { number := 2, Name := "data", Start := "50%", End := "100%", FS := "ext4", FSUUID := "STALE-UUID" }] }

/-- C2 (code bug): the mkfs command issued by `formatPartition` for the
first partition fails under `exMkfsFail`, yet `formatPartition` returns
success (the source never checks `Command{}.Run`'s result) with the
stale probed UUID, and `Run` carries on to completion: the second
partition is still formatted and the mountpoints are still mounted. -/
theorem formatPartition_ignores_mkfs_failure :
    (exMkfsFail.runCmd "Formatting partition 1" ["mkfs.ext4", "-L", "root", "/dev/sda1"]
      = .error "exit status 1") ∧
    (formatPartition c2Part { image := "/dev/sda" } exMkfsFail
      = some ([Op.runCmd "Formatting partition 1" ["mkfs.ext4", "-L", "root", "/dev/sda1"],
               Op.execCmd ["blkid", "-o", "value", "-s", "UUID", "-p", "-c", "none", "/dev/sda1"]],
              .ok { c2Part with FSUUID := "STALE-UUID" })) ∧
    (Run c2Action { image := "/dev/sda", scratchdir := "/scratch" } exMkfsFail
        = some (c2Trace, c2CtxOut, .ok c2ActionOut) ∧
      Op.runCmd "Formatting partition 2" ["mkfs.ext4", "-L", "data", "/dev/sda2"] ∈ c2Trace ∧
      Op.mount "/dev/sda2" (pathJoin (pathJoin "/scratch" "mnt") "/data") "ext4" ∈ c2Trace) := by
  exact ⟨by rfl, by rfl, by rfl, by decide, by decide⟩

end DebosImagePartition
